import Mathlib

/-!
Verification of the CodeDoc pipeline (`llm2.py`): a shallow embedding of the
string-processing core — repository-URL parsing, tree filtering, issue
filtering, issue-to-file matching, content decoding, and AI-response parsing —
together with theorems settling the specified properties.

Python string primitives (`strip`, `split`, `replace`, substring membership,
`endswith`, `os.path.basename`, `base64.b64decode`, `bytes.decode("utf-8")`)
are modelled as executable functions over `List Char` / `Nat` with the same
observable behaviour on the inputs the program feeds them.
-/

namespace CodeDoc

/-! ## Python string primitives -/

/-- Python whitespace characters recognised by `str.strip()`. -/
def isPySpace (c : Char) : Bool :=
  c == ' ' || c == '\t' || c == '\n' || c == '\r' || c == '\u000B' || c == '\u000C'

/-- Python `str.strip()`: remove leading and trailing whitespace. -/
def pyStrip (s : String) : String :=
  String.mk (((s.toList.dropWhile isPySpace).reverse.dropWhile isPySpace).reverse)

/-- Python `str.rstrip("/")`: remove all trailing slashes. -/
def pyRstripSlash (s : String) : String :=
  String.mk ((s.toList.reverse.dropWhile (· == '/')).reverse)

/-- Python `str.split(sep)` for a one-character separator `sep`. -/
def split1 (c : Char) : List Char → List (List Char)
  | [] => [[]]
  | x :: xs =>
    if x == c then [] :: split1 c xs
    else
      match split1 c xs with
      | [] => [[x]]
      | b :: bs => (x :: b) :: bs

/-- Python `str.split(sep)` for a two-identical-character separator `cc`
(the program only splits on `"\n\n"`); occurrences are consumed
left-to-right without overlap, exactly as in Python. -/
def split2 (c : Char) : List Char → List (List Char)
  | [] => [[]]
  | [x] => [[x]]
  | x :: y :: xs =>
    if x == c && y == c then [] :: split2 c xs
    else
      match split2 c (y :: xs) with
      | [] => [[x, y]]
      | b :: bs => (x :: b) :: bs

/-- Python `s.split(c)` at the `String` level, single-character separator. -/
def pySplitChar (c : Char) (s : String) : List String :=
  (split1 c s.toList).map String.mk

/-- Python `s.split(cc)` at the `String` level, double-character separator. -/
def pySplitChar2 (c : Char) (s : String) : List String :=
  (split2 c s.toList).map String.mk

/-- Does `needle` occur as a contiguous substring of `hay`?
Python's `needle in hay`. -/
def containsSub (needle : List Char) : List Char → Bool
  | [] => needle.isEmpty
  | x :: xs => needle.isPrefixOf (x :: xs) || containsSub needle xs

/-- Python `needle in hay` at the `String` level. -/
def substrOf (needle hay : String) : Bool :=
  containsSub needle.toList hay.toList

/-- Python `s.endswith(suffix)`. -/
def pyEndsWith (s suf : String) : Bool :=
  suf.toList.isSuffixOf s.toList

/-- Python `str.lower()` (ASCII case folding suffices for the program's
keyword set). -/
def pyLower (s : String) : String :=
  String.mk (s.toList.map Char.toLower)

/-- Fuel-driven worker for Python `str.replace(pat, rep)` with a non-empty
pattern: replaces occurrences left-to-right without overlap.  Fuel equal to
the input length always suffices because each step consumes at least one
character. -/
def replaceFuel (p r : List Char) : Nat → List Char → List Char
  | 0, l => l
  | _ + 1, [] => []
  | n + 1, x :: xs =>
    if p.isPrefixOf (x :: xs) then r ++ replaceFuel p r n ((x :: xs).drop p.length)
    else x :: replaceFuel p r n xs

/-- Python `s.replace(pat, rep)` for a non-empty `pat` (the program only
replaces its non-empty section markers). -/
def pyReplace (s pat rep : String) : String :=
  match pat.toList with
  | [] => s
  | _ :: _ => String.mk (replaceFuel pat.toList rep.toList s.toList.length s.toList)

/-- `os.path.basename`: the final `/`-separated segment of a path. -/
def basename (p : String) : String :=
  (pySplitChar '/' p).getLastD ""

/-! ## Repository Locator (`extract_repo_details`, llm2.py lines 32-35) -/

/-- `extract_repo_details`: strips trailing slashes, splits the URL on `/`,
and returns the last two parts when at least two exist, `(None, None)`
otherwise. -/
def extract_repo_details (github_url : String) : Option String × Option String :=
  let parts := pySplitChar '/' (pyRstripSlash github_url)
  if 2 ≤ parts.length then
    (some (parts.getD (parts.length - 2) ""), some (parts.getLastD ""))
  else (none, none)

/-! ## Issue Filter (`is_code_related`, llm2.py lines 96-101, and the
`filtered_issues` list comprehension, line 154) -/

/-- The fixed keyword list of `is_code_related`. -/
def codeKeywords : List String :=
  ["error", "exception", "traceback", ".py", ".cpp", ".js", ".c", ".java"]

/-- `is_code_related`: false on an empty body, otherwise true iff the
case-folded body contains one of the fixed keywords. -/
def is_code_related (issue_body : String) : Bool :=
  if issue_body == "" then false
  else codeKeywords.any (fun k => substrOf k (pyLower issue_body))

/-- An issue as consumed by the pipeline: title and the body string obtained
by `issue.get("body", "")`. -/
structure Issue where
  title : String
  body : String
deriving DecidableEq, Repr

/-- The `filtered_issues` list comprehension (llm2.py line 154). -/
def filtered_issues (issues : List Issue) : List Issue :=
  issues.filter (fun i => is_code_related i.body)

/-! ## Tree Fetcher (`fetch_repo_files`, llm2.py lines 44-49) -/

/-- One entry of the `tree` array of the git-trees response: its `path` key
when present, and its `type` key. -/
structure TreeEntry where
  path : Option String
  type : String
deriving DecidableEq, Repr

/-- `fetch_repo_files`, applied to the response status code and the parsed
`tree` array (`response.json().get("tree", [])`): on a 200 status it keeps
`file["path"]` for every entry with a `path` key and `type == "blob"`;
otherwise it returns the empty list. -/
def fetch_repo_files (status_code : Nat) (tree : List TreeEntry) : List String :=
  if status_code == 200 then
    tree.filterMap (fun f =>
      match f.path with
      | some p => if f.type == "blob" then some p else none
      | none => none)
  else []

/-! ## File Matcher (`extract_file_path`, llm2.py lines 61-75) -/

/-- The fixed extension whitelist of `extract_file_path` (llm2.py line 63). -/
def valid_extensions : List String := [".py", ".cpp", ".js", ".c", ".java"]

/-- `any(repo_file.endswith(ext) for ext in valid_extensions)`. -/
def hasValidExt (repo_file : String) : Bool :=
  valid_extensions.any (fun ext => pyEndsWith repo_file ext)

/-- The inner match test of `extract_file_path` (llm2.py line 72):
`line.strip() in repo_file or line.strip() == os.path.basename(repo_file)`. -/
def lineMatches (line repo_file : String) : Bool :=
  substrOf (pyStrip line) repo_file || pyStrip line == basename repo_file

/-- The inner `for repo_file in repo_files` loop with its early `return`. -/
def findInFiles (line : String) : List String → Option String
  | [] => none
  | f :: fs =>
    if hasValidExt f && lineMatches line f then some f else findInFiles line fs

/-- The outer `for line in issue_lines` loop with its early `return`. -/
def scanLines (repo_files : List String) : List String → Option String
  | [] => none
  | l :: ls =>
    match findInFiles l repo_files with
    | some f => some f
    | none => scanLines repo_files ls

/-- `extract_file_path`: `None` on a falsy body or empty file list, else the
first file hit by the nested line-by-file scan. -/
def extract_file_path (issue_body : String) (repo_files : List String) :
    Option String :=
  if issue_body == "" || repo_files.isEmpty then none
  else scanLines repo_files (pySplitChar '\n' issue_body)

/-! ## Content Fetcher (`fetch_buggy_code`, llm2.py lines 77-94) -/

/-- The JSON value returned by `response.json()`. -/
inductive Json where
  | obj : List (String × Json) → Json
  | arr : List Json → Json
  | str : String → Json
  | num : Int → Json
  | bool : Bool → Json
  | null : Json

/-- Python dict key lookup on a parsed JSON object. -/
def jlookup (fields : List (String × Json)) (k : String) : Option Json :=
  match fields with
  | [] => none
  | (k', v) :: rest => if k' == k then some v else jlookup rest k

/-- The 6-bit value of one base64 alphabet character. -/
def b64val (c : Char) : Option Nat :=
  if 'A' ≤ c && c ≤ 'Z' then some (c.toNat - 'A'.toNat)
  else if 'a' ≤ c && c ≤ 'z' then some (c.toNat - 'a'.toNat + 26)
  else if '0' ≤ c && c ≤ '9' then some (c.toNat - '0'.toNat + 52)
  else if c == '+' then some 62
  else if c == '/' then some 63
  else none

/-- Decode base64 four characters at a time, honouring `=` padding at the
end; fails (as `base64.b64decode` raises `binascii.Error`) when the data is
not a whole number of four-character groups. -/
def b64groups : List Char → Option (List Nat)
  | [] => some []
  | a :: b :: c :: d :: rest =>
    match b64val a, b64val b with
    | some va, some vb =>
      if c == '=' then
        if d == '=' && rest.isEmpty then some [va * 4 + vb / 16] else none
      else
        match b64val c with
        | some vc =>
          if d == '=' then
            if rest.isEmpty then some [va * 4 + vb / 16, (vb % 16) * 16 + vc / 4]
            else none
          else
            match b64val d with
            | some vd =>
              (b64groups rest).map (fun t =>
                (va * 4 + vb / 16) :: ((vb % 16) * 16 + vc / 4) :: ((vc % 4) * 64 + vd) :: t)
            | none => none
        | none => none
    | _, _ => none
  | _ => none

/-- `base64.b64decode` (default non-validating mode): characters outside the
base64 alphabet and padding are discarded first, then the remainder is
decoded, failing on incorrect padding. -/
def b64decode (s : String) : Option (List Nat) :=
  b64groups (s.toList.filter (fun c => (b64val c).isSome || c == '='))

/-- `bytes.decode("utf-8")`: strict UTF-8 decoding of a byte sequence,
rejecting truncated sequences, stray continuation bytes, overlong forms,
surrogates and out-of-range code points. -/
def utf8decode : List Nat → Option (List Char)
  | [] => some []
  | b :: bs =>
    if b ≤ 0x7F then (utf8decode bs).map (fun cs => Char.ofNat b :: cs)
    else if b < 0xC2 then none
    else if b ≤ 0xDF then
      match bs with
      | b2 :: rest =>
        if 0x80 ≤ b2 && b2 ≤ 0xBF then
          (utf8decode rest).map (fun cs => Char.ofNat ((b - 0xC0) * 64 + (b2 - 0x80)) :: cs)
        else none
      | [] => none
    else if b ≤ 0xEF then
      match bs with
      | b2 :: b3 :: rest =>
        let cp := (b - 0xE0) * 4096 + (b2 - 0x80) * 64 + (b3 - 0x80)
        if 0x80 ≤ b2 && b2 ≤ 0xBF && 0x80 ≤ b3 && b3 ≤ 0xBF &&
            0x800 ≤ cp && !(0xD800 ≤ cp && cp ≤ 0xDFFF) then
          (utf8decode rest).map (fun cs => Char.ofNat cp :: cs)
        else none
      | _ => none
    else if b ≤ 0xF4 then
      match bs with
      | b2 :: b3 :: b4 :: rest =>
        let cp := (b - 0xF0) * 262144 + (b2 - 0x80) * 4096 + (b3 - 0x80) * 64 + (b4 - 0x80)
        if 0x80 ≤ b2 && b2 ≤ 0xBF && 0x80 ≤ b3 && b3 ≤ 0xBF &&
            0x80 ≤ b4 && b4 ≤ 0xBF && 0x10000 ≤ cp && cp ≤ 0x10FFFF then
          (utf8decode rest).map (fun cs => Char.ofNat cp :: cs)
        else none
      | _ => none
    else none

/-- `base64.b64decode(v).decode("utf-8")` on the JSON value stored under
`"content"`: a non-string value makes `b64decode` raise `TypeError`, which
the surrounding `try` also catches, so it is a decode failure too. -/
def b64_utf8 (v : Json) : Option String :=
  match v with
  | .str s => (b64decode s).bind (fun bytes => (utf8decode bytes).map String.mk)
  | _ => none

/-- The observable outcome of `fetch_buggy_code` after `response.json()` has
produced `response_data`. -/
inductive FetchOutcome where
  /-- The decoded file text is returned. -/
  | success : String → FetchOutcome
  /-- The decode `except` branch: `st.error` about decoding, `None` returned. -/
  | decodeError : FetchOutcome
  /-- The `isinstance(list)` branch: directory error reported, `None` returned. -/
  | dirError : FetchOutcome
  /-- The final `else` branch: generic failure reported, `None` returned. -/
  | genericError : FetchOutcome
  /-- An uncaught exception escapes `fetch_buggy_code`
  (`response_data.get` on a value with no `get` attribute). -/
  | raised : FetchOutcome
deriving DecidableEq, Repr

/-- `fetch_buggy_code`, as a function of the parsed response body. -/
def fetch_buggy_code (response_data : Json) : FetchOutcome :=
  match response_data with
  | .obj fields =>
    match jlookup fields "content" with
    | some v =>
      match b64_utf8 v with
      | some text => .success text
      | none => .decodeError
    | none => .genericError
  | .arr _ => .dirError
  | _ => .raised

/-- `True` exactly on JSON objects (`isinstance(response_data, dict)`). -/
def Json.isObj : Json → Bool
  | .obj _ => true
  | _ => false

/-- `True` exactly on JSON arrays (`isinstance(response_data, list)`). -/
def Json.isArr : Json → Bool
  | .arr _ => true
  | _ => false

/-! ## Fix Generator (`fix_code_with_ai`, llm2.py lines 103-137) -/

/-- The `formatted_sections` dictionary. -/
structure FixResult where
  rootCause : String
  fixedCode : String
  explanation : String
deriving DecidableEq, Repr

/-- The `"**Root Cause:**"` marker. -/
def rcMark : String := "**Root Cause:**"

/-- The `"**Fixed Code:**"` marker. -/
def fcMark : String := "**Fixed Code:**"

/-- The `"**Explanation:**"` marker. -/
def exMark : String := "**Explanation:**"

/-- One iteration of the `for section in ai_response.split("\n\n")` loop:
the `if` / `elif` chain over the three markers, assigning
`section.replace(marker, "").strip()` to the matching field. -/
def applySection (acc : FixResult) (sec : String) : FixResult :=
  if substrOf rcMark sec then { acc with rootCause := pyStrip (pyReplace sec rcMark "") }
  else if substrOf fcMark sec then { acc with fixedCode := pyStrip (pyReplace sec fcMark "") }
  else if substrOf exMark sec then { acc with explanation := pyStrip (pyReplace sec exMark "") }
  else acc

/-- Lines 118-127 of `fix_code_with_ai`: strip the completion text, split it
on blank lines and fold the section scanner over the blocks, starting from
three empty fields. -/
def parse_ai_response (content : String) : FixResult :=
  (pySplitChar2 '\n' (pyStrip content)).foldl applySection ⟨"", "", ""⟩

/-- `fix_code_with_ai` with the completion call modelled as an oracle whose
successive responses are the given list: each consumed response is one
completion invocation, and an empty `Fixed Code` field triggers the
self-recursive retry on the remaining responses.  Returns the result the
code would return (`none` while the oracle keeps yielding empty fixes)
paired with the number of invocations made. -/
def fix_code_with_ai : List String → Option FixResult × Nat
  | [] => (none, 0)
  | r :: rs =>
    let parsed := parse_ai_response r
    if parsed.fixedCode == "" then
      let (res, n) := fix_code_with_ai rs
      (res, n + 1)
    else (some parsed, 1)

/-! ## Claim-side matcher definitions

`extract_file_path_claimed` transcribes the File Matcher as claim C2 words
it (first line/file pair in line-major order whose trimmed line equals the
basename or is a substring of the path, with no other condition);
`extract_file_path_amended` is the same with the two conditions the source
actually imposes restored: the falsy-input guard and the per-file extension
check. -/

/-- The matcher exactly as claim C2 states it: no extension check and no
guard; first match in line-major, file-minor order of
`trimmed line == basename ∨ trimmed line substring of path`. -/
def extract_file_path_claimed (issue_body : String) (repo_files : List String) :
    Option String :=
  (pySplitChar '\n' issue_body).findSome? (fun l =>
    repo_files.find? (fun f => pyStrip l == basename f || substrOf (pyStrip l) f))

/-- Claim C2 amended to the source's behaviour: the scan only considers
files with a recognised extension, and a falsy body or empty file list
yields `none` before any scanning. -/
def extract_file_path_amended (issue_body : String) (repo_files : List String) :
    Option String :=
  if issue_body == "" || repo_files.isEmpty then none
  else
    (pySplitChar '\n' issue_body).findSome? (fun l =>
      repo_files.find? (fun f =>
        hasValidExt f && (pyStrip l == basename f || substrOf (pyStrip l) f)))

/-! ## Helper lemmas -/

/-- A list is a prefix-check success against itself followed by anything. -/
theorem isPrefixOf_append_self (p l : List Char) : p.isPrefixOf (p ++ l) = true := by
  induction p with
  | nil => simp [List.isPrefixOf]
  | cons c cs ih => simp [List.isPrefixOf, ih]

/-- The empty needle occurs in every haystack (Python `"" in s`). -/
theorem containsSub_nil (l : List Char) : containsSub [] l = true := by
  cases l <;> simp [containsSub, List.isPrefixOf, List.isEmpty]

/-- A needle occurs in any haystack it begins. -/
theorem containsSub_of_append (c : Char) (m l : List Char) :
    containsSub (c :: m) ((c :: m) ++ l) = true := by
  show containsSub (c :: m) (c :: (m ++ l)) = true
  simp [containsSub, isPrefixOf_append_self (c :: m) l]

/-! ## C8: the Issue Filter is idempotent and monotonic -/

/-- C8: filtering an already-filtered issue list changes nothing, and the
filtered list is always a sublist of the input. -/
theorem issue_filter_idempotent_and_monotone (issues : List Issue) :
    filtered_issues (filtered_issues issues) = filtered_issues issues ∧
    (filtered_issues issues).Sublist issues := by
  constructor
  · simp [filtered_issues, List.filter_filter]
  · exact List.filter_sublist issues

/-! ## C6: the Repository Locator -/

/-- C6 counterexample: the Locator does not skip empty segments.  On
`"a//b"` the split is `["a", "", "b"]` and the code returns the literal
last two parts `("", "b")`, not the last two non-empty segments
`("a", "b")` the claim requires. -/
theorem extract_repo_details_counterexample :
    extract_repo_details "a//b" ≠ (some "a", some "b") ∧
    extract_repo_details "a//b" = (some "", some "b") := by decide

/-- C6 amended: after stripping trailing slashes and splitting on `/`, the
Locator returns the last two parts verbatim (empty parts included) whenever
at least two parts exist, returns `(none, none)` when the split is a single
part (no `/` present), and maps the documented scenario URL to
`("acme", "widgets")`. -/
theorem extract_repo_details_spec :
    (∀ u xs a b, pySplitChar '/' (pyRstripSlash u) = xs ++ [a, b] →
      extract_repo_details u = (some a, some b)) ∧
    (∀ u a, pySplitChar '/' (pyRstripSlash u) = [a] →
      extract_repo_details u = (none, none)) ∧
    extract_repo_details "https://github.com/acme/widgets/" =
      (some "acme", some "widgets") := by
  refine ⟨?_, ?_, by decide⟩
  · intro u xs a b h
    simp only [extract_repo_details, h]
    have hlen : (xs ++ [a, b]).length = xs.length + 2 := by simp
    rw [if_pos (by omega)]
    have h1 : (xs ++ [a, b]).getD ((xs ++ [a, b]).length - 2) "" = a := by
      rw [hlen]
      simp only [Nat.add_sub_cancel, List.getD]
      simp
      rw [List.getElem_append_right (Nat.le_refl _)]
      simp
    have h2 : (xs ++ [a, b]).getLastD "" = b := by
      rw [show xs ++ [a, b] = (xs ++ [a]) ++ [b] by simp]
      exact List.getLastD_concat _ _ _
    rw [h1, h2]
  · intro u a h
    simp [extract_repo_details, h]

/-- C6 witness: the amended theorem applied to the concrete URLs `"x/y"`
(two segments) and `"xyz"` (one segment). -/
theorem extract_repo_details_spec_witness :
    extract_repo_details "x/y" = (some "x", some "y") ∧
    extract_repo_details "xyz" = (none, none) :=
  ⟨extract_repo_details_spec.1 "x/y" [] "x" "y" (by decide),
   extract_repo_details_spec.2.1 "xyz" "xyz" (by decide)⟩

/-! ## C3: the documented matcher scenario -/

/-- C3 counterexample: on the documented scenario the matcher does not
return `"utils/parser.py"`.  The code tests `line.strip() in repo_file`
(line as substring of the path), and the whole issue line
`"See bugs in utils/parser.py for the crash"` is not a substring of
`"utils/parser.py"`, nor equal to the basename `"parser.py"`. -/
theorem extract_file_path_scenario_counterexample :
    extract_file_path "See bugs in utils/parser.py for the crash"
      ["utils/parser.py", "utils/helper.py"] ≠ some "utils/parser.py" := by decide

/-- C3 amended: on the documented scenario the matcher returns `none` —
no line/file pair satisfies the source's containment test. -/
theorem extract_file_path_scenario_none :
    extract_file_path "See bugs in utils/parser.py for the crash"
      ["utils/parser.py", "utils/helper.py"] = none := by decide

/-! ## C1: the Tree Fetcher -/

/-- C1 counterexample: the Tree Fetcher applies no extension whitelist.  A
200 response whose tree holds the single blob `README.md` yields
`["README.md"]`, a path with no recognised source-code extension. -/
theorem fetch_repo_files_counterexample :
    fetch_repo_files 200 [⟨some "README.md", "blob"⟩] = ["README.md"] ∧
    hasValidExt "README.md" = false := by decide

/-- C1 amended: every path returned by the Tree Fetcher comes from a
blob-type tree entry carrying that path; the only filtering done inside
`fetch_repo_files` is by `type == "blob"` (and presence of a `path` key) —
the extension whitelist lives in `extract_file_path`, not here. -/
theorem fetch_repo_files_blob_only (status_code : Nat) (tree : List TreeEntry)
    (p : String) (hp : p ∈ fetch_repo_files status_code tree) :
    ∃ e ∈ tree, e.path = some p ∧ e.type = "blob" := by
  unfold fetch_repo_files at hp
  split at hp
  · rw [List.mem_filterMap] at hp
    obtain ⟨e, he, hee⟩ := hp
    refine ⟨e, he, ?_⟩
    cases hpath : e.path with
    | none => rw [hpath] at hee; exact absurd hee (by simp)
    | some q =>
      rw [hpath] at hee
      dsimp only at hee
      by_cases hty : e.type == "blob"
      · rw [if_pos hty] at hee
        cases hee
        exact ⟨rfl, by simpa using hty⟩
      · rw [if_neg hty] at hee
        exact absurd hee (by simp)
  · exact absurd hp (by simp)

/-- C1 witness: the amended theorem applied to a concrete 200 response with
one blob entry. -/
theorem fetch_repo_files_blob_only_witness :
    ∃ e ∈ [(⟨some "a.py", "blob"⟩ : TreeEntry)],
      e.path = some "a.py" ∧ e.type = "blob" :=
  fetch_repo_files_blob_only 200 [⟨some "a.py", "blob"⟩] "a.py" (by decide)

/-! ## C4: the Fix Generator retry bound -/

/-- C4: with the completion oracle persistently returning a response with no
fixed-code block (here the markerless text `"x"`, three times), the
generator makes three invocations — it recurses on every empty fix, so the
claimed two-invocation bound does not hold; the recursion is bounded only
by the oracle eventually producing a non-empty fixed-code field. -/
theorem fix_code_with_ai_unbounded_retry :
    fix_code_with_ai ["x", "x", "x"] = (none, 3) ∧
    fix_code_with_ai ["x", "x", "x", "x"] = (none, 4) := by decide

/-! ## C7: the Content Fetcher outcomes -/

/-- C7 counterexample: a response body that is neither an object nor a list
(here the JSON string `"oops"`) does not produce a reported generic failure
with a `None` return — the `else` branch calls `response_data.get`, which
raises `AttributeError` on a non-dict value, so the exception escapes
`fetch_buggy_code`. -/
theorem fetch_buggy_code_counterexample :
    fetch_buggy_code (.str "oops") = .raised ∧
    fetch_buggy_code (.str "oops") ≠ .genericError := by decide

/-- C7 amended: the Content Fetcher's outcomes, split by response shape — an
object with a `content` field returns the base64-and-UTF-8 decode when it
succeeds and reports a decode error (returning `None`) when it fails; a
list reports the directory error; an object without `content` reports the
generic failure; any other shape raises out of the function.  The
documented scenario `{"content": "cHJpbnQoMSk="}` decodes to
`"print(1)"`. -/
theorem fetch_buggy_code_outcomes :
    (∀ rd : Json,
      (∃ fields v, rd = .obj fields ∧ jlookup fields "content" = some v ∧
        ((∃ t, b64_utf8 v = some t ∧ fetch_buggy_code rd = .success t) ∨
         (b64_utf8 v = none ∧ fetch_buggy_code rd = .decodeError))) ∨
      (∃ fields, rd = .obj fields ∧ jlookup fields "content" = none ∧
        fetch_buggy_code rd = .genericError) ∨
      (∃ l, rd = .arr l ∧ fetch_buggy_code rd = .dirError) ∨
      (rd.isObj = false ∧ rd.isArr = false ∧ fetch_buggy_code rd = .raised)) ∧
    fetch_buggy_code (.obj [("content", .str "cHJpbnQoMSk=")]) =
      .success "print(1)" := by
  refine ⟨?_, by decide⟩
  intro rd
  match rd with
  | .obj fields =>
    cases hlk : jlookup fields "content" with
    | some v =>
      cases hdec : b64_utf8 v with
      | some t =>
        exact Or.inl ⟨fields, v, rfl, hlk,
          Or.inl ⟨t, hdec, by simp [fetch_buggy_code, hlk, hdec]⟩⟩
      | none =>
        exact Or.inl ⟨fields, v, rfl, hlk,
          Or.inr ⟨hdec, by simp [fetch_buggy_code, hlk, hdec]⟩⟩
    | none =>
      exact Or.inr (Or.inl ⟨fields, rfl, hlk, by simp [fetch_buggy_code, hlk]⟩)
  | .arr l => exact Or.inr (Or.inr (Or.inl ⟨l, rfl, rfl⟩))
  | .str s => exact Or.inr (Or.inr (Or.inr ⟨rfl, rfl, rfl⟩))
  | .num n => exact Or.inr (Or.inr (Or.inr ⟨rfl, rfl, rfl⟩))
  | .bool b => exact Or.inr (Or.inr (Or.inr ⟨rfl, rfl, rfl⟩))
  | .null => exact Or.inr (Or.inr (Or.inr ⟨rfl, rfl, rfl⟩))

/-! ## Matcher lemmas for C2, C9 and C10 -/

/-- The inner loop condition, with the disjunction stated in the claim's
order. -/
theorem matchCond_comm (l f : String) :
    (hasValidExt f && lineMatches l f) =
    (hasValidExt f && (pyStrip l == basename f || substrOf (pyStrip l) f)) := by
  cases h1 : substrOf (pyStrip l) f <;> cases h2 : pyStrip l == basename f <;>
    simp [lineMatches, h1, h2]

/-- The inner loop is `List.find?` over the combined condition. -/
theorem findInFiles_eq_find (l : String) (fs : List String) :
    findInFiles l fs =
      fs.find? (fun f =>
        hasValidExt f && (pyStrip l == basename f || substrOf (pyStrip l) f)) := by
  induction fs with
  | nil => rfl
  | cons f fs ih =>
    rw [findInFiles, matchCond_comm]
    cases h : (hasValidExt f && (pyStrip l == basename f || substrOf (pyStrip l) f)) with
    | true => rw [if_pos rfl, List.find?_cons]; simp [h]
    | false => rw [if_neg (by simp), ih, List.find?_cons]; simp [h]

/-- The outer loop is `List.findSome?` of the inner loop. -/
theorem scanLines_eq_findSome (fs ls : List String) :
    scanLines fs ls = ls.findSome? (fun l => findInFiles l fs) := by
  induction ls with
  | nil => rfl
  | cons l ls ih =>
    rw [scanLines, List.findSome?_cons]
    cases findInFiles l fs <;> simp [ih]

/-- A file returned by the inner loop is drawn from the file list and
satisfies the full loop condition. -/
theorem findInFiles_mem (l f : String) (fs : List String)
    (h : findInFiles l fs = some f) :
    f ∈ fs ∧ (hasValidExt f && lineMatches l f) = true := by
  induction fs with
  | nil => exact absurd h (by simp [findInFiles])
  | cons g fs ih =>
    rw [findInFiles] at h
    by_cases hc : (hasValidExt g && lineMatches l g) = true
    · rw [if_pos hc] at h
      injection h with h
      subst h
      exact ⟨List.mem_cons_self g fs, hc⟩
    · rw [if_neg hc] at h
      obtain ⟨hm, hcond⟩ := ih h
      exact ⟨List.mem_cons_of_mem g hm, hcond⟩

/-- A file returned by the outer loop is returned by the inner loop on some
line of the body. -/
theorem scanLines_sound (fs ls : List String) (f : String)
    (h : scanLines fs ls = some f) :
    ∃ l ∈ ls, findInFiles l fs = some f := by
  induction ls with
  | nil => exact absurd h (by simp [scanLines])
  | cons l ls ih =>
    rw [scanLines] at h
    cases hf : findInFiles l fs with
    | some g =>
      rw [hf] at h
      cases h
      exact ⟨l, List.mem_cons_self l ls, hf⟩
    | none =>
      rw [hf] at h
      obtain ⟨l', hl', hfind⟩ := ih h
      exact ⟨l', List.mem_cons_of_mem l hl', hfind⟩

/-- On a line whose trimmed form is empty, the inner loop degenerates to
"first file with a recognised extension": the empty string is a substring
of every path, so the match test is vacuously true. -/
theorem findInFiles_blank (l : String) (fs : List String)
    (hblank : pyStrip l = "") :
    findInFiles l fs = fs.find? (fun f => hasValidExt f) := by
  induction fs with
  | nil => rfl
  | cons f fs ih =>
    have hmatch : lineMatches l f = true := by
      rw [lineMatches, hblank]
      simp [substrOf, containsSub_nil]
    rw [findInFiles, hmatch]
    cases h : hasValidExt f with
    | true => rw [if_pos (by simp [h]), List.find?_cons_of_pos _ h]
    | false => rw [if_neg (by simp [h]), List.find?_cons_of_neg _ (by simp [h]), ih]

/-- The inner loop returns nothing when no file passes the condition. -/
theorem findInFiles_none (l : String) (fs : List String)
    (h : ∀ f ∈ fs, (hasValidExt f && lineMatches l f) = false) :
    findInFiles l fs = none := by
  induction fs with
  | nil => rfl
  | cons f fs ih =>
    rw [findInFiles, h f (List.mem_cons_self f fs)]
    exact ih (fun g hg => h g (List.mem_cons_of_mem f hg))

/-! ## C2: the matcher's scan order and conditions -/

/-- C2 counterexample: the matcher does apply a per-file extension check.
For body `"README.md"` and file list `["README.md"]` the trimmed line
equals the path's basename, so the claim's two-condition rule (transcribed
as `extract_file_path_claimed`) returns the file, but `extract_file_path`
skips it — `README.md` carries no whitelisted extension — and returns
`none`. -/
theorem extract_file_path_claim_counterexample :
    extract_file_path "README.md" ["README.md"] = none ∧
    extract_file_path_claimed "README.md" ["README.md"] = some "README.md" := by
  decide

/-- C2 amended: the matcher returns the first (line, file) pair in
line-major, file-minor order whose file carries a whitelisted extension and
whose trimmed line equals the file's basename or is a substring of the
path — plus the source's falsy-input guard (`none` on an empty body or
empty file list).  `extract_file_path` coincides with that rule on every
input. -/
theorem extract_file_path_eq_amended (issue_body : String)
    (repo_files : List String) :
    extract_file_path issue_body repo_files =
      extract_file_path_amended issue_body repo_files := by
  rw [extract_file_path, extract_file_path_amended]
  cases hg : (issue_body == "" || repo_files.isEmpty) with
  | true => rw [if_pos (by simp_all), if_pos (by simp_all)]
  | false =>
    rw [if_neg (by simp_all), if_neg (by simp_all), scanLines_eq_findSome]
    simp only [findInFiles_eq_find]

/-! ## C9: the matched-file invariant -/

/-- C9: whenever the matcher returns a path, that path is a member of the
supplied file list and some line of the body, trimmed, equals its basename
or is a substring of it. -/
theorem extract_file_path_invariant (issue_body : String)
    (repo_files : List String) (f : String)
    (h : extract_file_path issue_body repo_files = some f) :
    f ∈ repo_files ∧ ∃ l ∈ pySplitChar '\n' issue_body,
      (pyStrip l == basename f || substrOf (pyStrip l) f) = true := by
  rw [extract_file_path] at h
  by_cases hg : (issue_body == "" || repo_files.isEmpty) = true
  · rw [if_pos hg] at h
    exact absurd h (by simp)
  · rw [if_neg hg] at h
    obtain ⟨l, hl, hfind⟩ := scanLines_sound _ _ _ h
    obtain ⟨hmem, hcond⟩ := findInFiles_mem _ _ _ hfind
    refine ⟨hmem, l, hl, ?_⟩
    rw [matchCond_comm] at hcond
    exact ((Bool.and_eq_true _ _).mp hcond).2

/-- C9 witness: the invariant applied to a body that is exactly a matching
path. -/
theorem extract_file_path_invariant_witness :
    "utils/parser.py" ∈ ["utils/parser.py"] ∧
    ∃ l ∈ pySplitChar '\n' "utils/parser.py",
      (pyStrip l == basename "utils/parser.py" ||
        substrOf (pyStrip l) "utils/parser.py") = true :=
  extract_file_path_invariant "utils/parser.py" ["utils/parser.py"]
    "utils/parser.py" (by decide)

/-! ## C10: blank lines match the first whitelisted file -/

/-- C10 counterexample: the claim fails on the empty body.  `""` splits to
the single empty line `[""]` and `["a.py"]` is a non-empty list whose first
whitelisted file is `a.py`, so the claim predicts `some "a.py"`, but the
falsy-body guard of `extract_file_path` returns `none` first. -/
theorem extract_file_path_blank_counterexample :
    extract_file_path "" ["a.py"] = none ∧
    pySplitChar '\n' "" = [""] ∧ pyStrip "" = "" ∧
    hasValidExt "a.py" = true := by decide

/-- Worker for C10: if line `i` trims to empty and no earlier line matches
any file, the outer scan returns the first file with a whitelisted
extension. -/
theorem scanLines_blank_line (fs : List String) (ls : List String) (i : Nat)
    (hi : i < ls.length)
    (hblank : pyStrip (ls.getD i "") = "")
    (hprior : ∀ j < i, ∀ f ∈ fs,
      (hasValidExt f && lineMatches (ls.getD j "") f) = false)
    (hext : ∃ f ∈ fs, hasValidExt f = true) :
    scanLines fs ls = fs.find? (fun f => hasValidExt f) := by
  induction i generalizing ls with
  | zero =>
    cases ls with
    | nil => exact absurd hi (by simp)
    | cons l ls =>
      rw [List.getD_cons_zero] at hblank
      rw [scanLines, findInFiles_blank l fs hblank]
      obtain ⟨f, hf, hvf⟩ := hext
      cases hfind : fs.find? (fun f => hasValidExt f) with
      | some g => rfl
      | none =>
        rw [List.find?_eq_none] at hfind
        exact absurd hvf (by simpa using hfind f hf)
  | succ k ih =>
    cases ls with
    | nil => exact absurd hi (by simp)
    | cons l ls =>
      have h0 : findInFiles l fs = none := by
        refine findInFiles_none l fs (fun f hf => ?_)
        have := hprior 0 (Nat.succ_pos k) f hf
        rwa [List.getD_cons_zero] at this
      rw [scanLines, h0]
      refine ih ls (by simpa using hi) (by rwa [List.getD_cons_succ] at hblank)
        (fun j hj f hf => ?_)
      have := hprior (j + 1) (Nat.succ_lt_succ hj) f hf
      rwa [List.getD_cons_succ] at this

/-- C10 amended: for every non-empty issue body containing a line that
trims to empty, and non-empty file list containing a whitelisted-extension
file, if no line before that blank line matches any file then
`extract_file_path` returns the first file in list order with a recognised
extension — the trimmed empty line is a substring of every path. -/
theorem extract_file_path_blank_line (issue_body : String)
    (repo_files : List String) (i : Nat)
    (hbody : issue_body ≠ "") (hfiles : repo_files ≠ [])
    (hi : i < (pySplitChar '\n' issue_body).length)
    (hblank : pyStrip ((pySplitChar '\n' issue_body).getD i "") = "")
    (hprior : ∀ j < i, ∀ f ∈ repo_files,
      (hasValidExt f && lineMatches ((pySplitChar '\n' issue_body).getD j "") f)
        = false)
    (hext : ∃ f ∈ repo_files, hasValidExt f = true) :
    extract_file_path issue_body repo_files =
      repo_files.find? (fun f => hasValidExt f) := by
  rw [extract_file_path, if_neg (by simp [hbody, hfiles])]
  exact scanLines_blank_line repo_files _ i hi hblank hprior hext

/-- C10 witness: a body whose first line matches nothing and whose second
line is whitespace-only, against a file list whose first whitelisted file
is `a.py`. -/
theorem extract_file_path_blank_line_witness :
    extract_file_path "notafile\n \nx" ["b.md", "a.py"] = some "a.py" :=
  (extract_file_path_blank_line "notafile\n \nx" ["b.md", "a.py"] 1
    (by decide) (by decide) (by decide) (by decide) (by decide)
    (by decide)).trans (by decide)

/-! ## Replace and permutation lemmas for C5 -/

/-- `replaceFuel` leaves a haystack without any occurrence of the pattern
unchanged, whatever the fuel. -/
theorem replaceFuel_no_occurrence (c : Char) (m r : List Char) :
    ∀ (n : Nat) (t : List Char), containsSub (c :: m) t = false →
      replaceFuel (c :: m) r n t = t := by
  intro n
  induction n with
  | zero => intro t _; rfl
  | succ k ih =>
    intro t hocc
    cases t with
    | nil => rfl
    | cons x xs =>
      rw [containsSub, Bool.or_eq_false_iff] at hocc
      rw [replaceFuel, if_neg (by simp [hocc.1]), ih xs hocc.2]

/-- Replacing a non-empty pattern by nothing in `pattern ++ t`, where the
pattern does not occur in `t`, yields `t`. -/
theorem replaceFuel_strip_marker (c : Char) (m : List Char) (t : List Char)
    (hocc : containsSub (c :: m) t = false) :
    replaceFuel (c :: m) [] ((c :: m) ++ t).length ((c :: m) ++ t) = t := by
  have hlen : ((c :: m) ++ t).length = (m ++ t).length + 1 := by simp
  rw [hlen]
  show replaceFuel (c :: m) [] ((m ++ t).length + 1) (c :: (m ++ t)) = t
  have hpre : (c :: m).isPrefixOf (c :: (m ++ t)) = true :=
    isPrefixOf_append_self (c :: m) t
  have hdrop : (c :: (m ++ t)).drop (c :: m).length = t :=
    List.drop_left (c :: m) t
  rw [replaceFuel, if_pos hpre, hdrop,
    replaceFuel_no_occurrence c m [] _ t hocc]
  rfl

/-- `String.toList` distributes over string concatenation. -/
theorem toList_append (s t : String) : (s ++ t).toList = s.toList ++ t.toList := by
  cases s; cases t; rfl

/-- `String.mk` inverts `String.toList`. -/
theorem mk_toList (s : String) : String.mk s.toList = s := by
  cases s; rfl

/-- Python `str.replace(marker, "")` on a block that starts with the marker
and contains no further occurrence of it recovers exactly the text after
the marker. -/
theorem pyReplace_strip_marker (mark t : String) (c : Char) (m : List Char)
    (hm : mark.toList = c :: m) (hocc : substrOf mark t = false) :
    pyReplace (mark ++ t) mark "" = t := by
  rw [substrOf, hm] at hocc
  have happ : (mark ++ t).toList = (c :: m) ++ t.toList := by
    rw [toList_append, hm]
  have hempty : ("" : String).toList = [] := rfl
  simp only [pyReplace, hm, happ, hempty]
  rw [replaceFuel_strip_marker c m t.toList hocc]
  exact mk_toList t

/-- A marker is a substring of any block it begins. -/
theorem substrOf_append_self (mark t : String) (c : Char) (m : List Char)
    (hm : mark.toList = c :: m) : substrOf mark (mark ++ t) = true := by
  rw [substrOf, toList_append, hm]
  exact containsSub_of_append c m t.toList

/-- Every permutation of a three-element list, explicitly enumerated. -/
theorem perm_three {α : Type} {l : List α} {a b c : α}
    (h : l.Perm [a, b, c]) :
    l = [a, b, c] ∨ l = [a, c, b] ∨ l = [b, a, c] ∨ l = [b, c, a] ∨
    l = [c, a, b] ∨ l = [c, b, a] := by
  have hpair : ∀ {y z u v : α}, ([y, z] : List α).Perm [u, v] →
      (y = u ∧ z = v) ∨ (y = v ∧ z = u) := by
    intro y z u v hp
    have hy : y ∈ [u, v] := hp.subset (List.mem_cons_self y [z])
    rw [List.mem_cons, List.mem_cons] at hy
    rcases hy with hy | hy | hy
    · subst hy
      have := hp.cons_inv
      rw [List.perm_singleton] at this
      injection this with h1 _
      exact Or.inl ⟨rfl, h1⟩
    · subst hy
      have hswap : ([u, y] : List α).Perm [y, u] := List.Perm.swap y u []
      have := (hp.trans hswap).cons_inv
      rw [List.perm_singleton] at this
      injection this with h1 _
      exact Or.inr ⟨rfl, h1⟩
    · exact absurd hy (by simp)
  have hlen := h.length_eq
  match l, hlen with
  | [x, y, z], _ =>
    have hx : x ∈ [a, b, c] := h.subset (List.mem_cons_self x [y, z])
    rw [List.mem_cons, List.mem_cons, List.mem_cons] at hx
    rcases hx with hx | hx | hx | hx
    · subst hx
      rcases hpair h.cons_inv with ⟨h1, h2⟩ | ⟨h1, h2⟩ <;> subst h1 <;> subst h2
      · exact Or.inl rfl
      · exact Or.inr (Or.inl rfl)
    · subst hx
      have hs : ([a, x, c] : List α).Perm [x, a, c] := List.Perm.swap x a [c]
      rcases hpair (h.trans hs).cons_inv with ⟨h1, h2⟩ | ⟨h1, h2⟩ <;>
        subst h1 <;> subst h2
      · exact Or.inr (Or.inr (Or.inl rfl))
      · exact Or.inr (Or.inr (Or.inr (Or.inl rfl)))
    · subst hx
      have hs1 : ([b, x] : List α).Perm [x, b] := List.Perm.swap x b []
      have hs2 : ([a, b, x] : List α).Perm [a, x, b] := hs1.cons a
      have hs3 : ([a, x, b] : List α).Perm [x, a, b] := List.Perm.swap x a [b]
      rcases hpair (h.trans (hs2.trans hs3)).cons_inv with ⟨h1, h2⟩ | ⟨h1, h2⟩ <;>
        subst h1 <;> subst h2
      · exact Or.inr (Or.inr (Or.inr (Or.inr (Or.inl rfl))))
      · exact Or.inr (Or.inr (Or.inr (Or.inr (Or.inr rfl))))
    · exact absurd hx (by simp)

/-! ## C5: the Fix Generator's response parser -/

/-- C5 counterexample: the parser's markers are the asterisked strings
`"**Root Cause:**"`, `"**Fixed Code:**"`, `"**Explanation:**"`, not the
bare `"Root Cause:"`, `"Fixed Code:"`, `"Explanation:"` named by the
claim.  A response in which each bare marker occupies exactly one
blank-line-separated block parses to three empty fields instead of the
texts `"a"`, `"b"`, `"c"` that follow the markers. -/
theorem parse_ai_response_counterexample :
    parse_ai_response "Root Cause: a\n\nFixed Code: b\n\nExplanation: c" =
      ⟨"", "", ""⟩ ∧
    parse_ai_response "intro **Root Cause:** a\n\n**Fixed Code:** b\n\n**Explanation:** c"
      ≠ ⟨"a", "b", "c"⟩ := by decide

/-- C5 amended: for every completion response whose blank-line split is,
in any order, exactly the three blocks `"**Root Cause:**" ++ trc`,
`"**Fixed Code:**" ++ tfc`, `"**Explanation:**" ++ tex` — each asterisked
marker occurring (as a substring) in its own block only, and only once
there — the parser populates each field with exactly the text following
its marker, trimmed of surrounding whitespace. -/
theorem parse_ai_response_round_trip
    (resp brc bfc bex trc tfc tex : String) (blocks : List String)
    (hsplit : pySplitChar2 '\n' (pyStrip resp) = blocks)
    (hperm : blocks.Perm [brc, bfc, bex])
    (hb1 : brc = rcMark ++ trc) (hb2 : bfc = fcMark ++ tfc)
    (hb3 : bex = exMark ++ tex)
    (hn12 : substrOf fcMark brc = false) (hn13 : substrOf exMark brc = false)
    (hn21 : substrOf rcMark bfc = false) (hn23 : substrOf exMark bfc = false)
    (hn31 : substrOf rcMark bex = false) (hn32 : substrOf fcMark bex = false)
    (ht1 : substrOf rcMark trc = false) (ht2 : substrOf fcMark tfc = false)
    (ht3 : substrOf exMark tex = false) :
    parse_ai_response resp = ⟨pyStrip trc, pyStrip tfc, pyStrip tex⟩ := by
  have hp1 : substrOf rcMark brc = true := by
    rw [hb1]; exact substrOf_append_self rcMark trc '*' _ rfl
  have hp2 : substrOf fcMark bfc = true := by
    rw [hb2]; exact substrOf_append_self fcMark tfc '*' _ rfl
  have hp3 : substrOf exMark bex = true := by
    rw [hb3]; exact substrOf_append_self exMark tex '*' _ rfl
  have hr1 : pyReplace brc rcMark "" = trc := by
    rw [hb1]; exact pyReplace_strip_marker rcMark trc '*' _ rfl ht1
  have hr2 : pyReplace bfc fcMark "" = tfc := by
    rw [hb2]; exact pyReplace_strip_marker fcMark tfc '*' _ rfl ht2
  have hr3 : pyReplace bex exMark "" = tex := by
    rw [hb3]; exact pyReplace_strip_marker exMark tex '*' _ rfl ht3
  have sRC : ∀ acc, applySection acc brc = { acc with rootCause := pyStrip trc } := by
    intro acc; rw [applySection, if_pos hp1, hr1]
  have sFC : ∀ acc, applySection acc bfc = { acc with fixedCode := pyStrip tfc } := by
    intro acc; rw [applySection, if_neg (by simp [hn21]), if_pos hp2, hr2]
  have sEX : ∀ acc, applySection acc bex = { acc with explanation := pyStrip tex } := by
    intro acc
    rw [applySection, if_neg (by simp [hn31]), if_neg (by simp [hn32]),
      if_pos hp3, hr3]
  rw [parse_ai_response, hsplit]
  rcases perm_three hperm with hl | hl | hl | hl | hl | hl <;> rw [hl] <;>
    simp only [List.foldl_cons, List.foldl_nil, sRC, sFC, sEX]

/-- C5 witness: the round-trip theorem applied to a concrete response whose
three marker blocks appear in scrambled order. -/
theorem parse_ai_response_round_trip_witness :
    parse_ai_response
        "**Fixed Code:** add y\n\n**Explanation:** because\n\n**Root Cause:** missing y"
      = ⟨pyStrip " missing y", pyStrip " add y", pyStrip " because"⟩ :=
  parse_ai_response_round_trip
    "**Fixed Code:** add y\n\n**Explanation:** because\n\n**Root Cause:** missing y"
    "**Root Cause:** missing y" "**Fixed Code:** add y" "**Explanation:** because"
    " missing y" " add y" " because"
    ["**Fixed Code:** add y", "**Explanation:** because", "**Root Cause:** missing y"]
    (by decide) (by decide) (by decide) (by decide) (by decide) (by decide)
    (by decide) (by decide) (by decide) (by decide) (by decide) (by decide)
    (by decide) (by decide)

end CodeDoc
